import Mathlib

/-!
Shallow embedding of the task-priority scoring engine (`tasks/scoring.py`).

Modelling conventions:
* Python task dictionaries are `Task` records.  A field that may hold an
  arbitrary run-time value is a `PyVal`: `absent` models a key that is not in
  the dictionary (so `task.get(k)` yields Python `None` while
  `task.get(k, d)` yields `d`), `noneV` models an explicit `None` value,
  `num q` a numeric value (`int`/`float`), `strNum q` a string that
  `float()` parses to `q`, `strBad` a non-numeric string, `listV l` a list
  of integer ids and `otherV` any other object.
* Python floats are modelled as exact rationals (`ℚ`); `round(x, n)` is
  modelled as rounding `x * 10^n` to the nearest integer.
* Calendar dates are modelled as integers (a day number); `date.today()`
  is threaded through as an explicit `today : ℤ` parameter.
* Python functions that can raise a `TypeError` on malformed data (the
  unguarded `>=` / `<=` comparisons in `generate_suggestion_reason`) are
  embedded with result type `Option _`, where `none` models a raised
  exception; functions whose coercions are wrapped in `try/except` in the
  source are total.
* The numeric rendering inside explanation strings abstracts Python's
  float formatting (a rational is printed instead); no claim depends on
  how a number is rendered inside a string.
-/

namespace TaskAnalyzer

/-- Run-time value stored in a task dictionary field. -/
inductive PyVal where
  | absent : PyVal
  | noneV : PyVal
  | num : ℚ → PyVal
  | strNum : ℚ → PyVal
  | strBad : String → PyVal
  | listV : List ℤ → PyVal
  | otherV : PyVal
deriving DecidableEq, Repr

/-- Run-time value of the `due_date` field, as consumed by `parse_date`:
a missing key, an explicit `None`, a `date`, a `datetime`, a string that
parses to a date (either accepted format), a string that parses to no
date, or any other object. -/
inductive DateVal where
  | absent : DateVal
  | noneV : DateVal
  | dateV : ℤ → DateVal
  | datetimeV : ℤ → DateVal
  | strOk : ℤ → DateVal
  | strBad : DateVal
  | otherV : DateVal
deriving DecidableEq, Repr

/-- A task record: the fields of the input dictionary that the scoring
engine reads (`title` is never used by scoring and is omitted). `id` is
`none` when the key is missing or `None` (both make `task.get('id')`
return `None`). -/
structure Task where
  id : Option ℤ
  due_date : DateVal
  importance : PyVal
  estimated_hours : PyVal
  dependencies : PyVal
deriving DecidableEq, Repr

/-- Strategy weight vector (one row of `STRATEGY_WEIGHTS`). -/
structure Weights where
  urgency : ℚ
  importance : ℚ
  effort : ℚ
  dependencies : ℚ
deriving DecidableEq, Repr

def smart_balance_weights : Weights :=
  { urgency := 0.35, importance := 0.30, effort := 0.15, dependencies := 0.20 }

def quick_wins_weights : Weights :=
  { urgency := 0.15, importance := 0.15, effort := 0.55, dependencies := 0.15 }

def high_impact_weights : Weights :=
  { urgency := 0.15, importance := 0.60, effort := 0.10, dependencies := 0.15 }

def deadline_driven_weights : Weights :=
  { urgency := 0.60, importance := 0.15, effort := 0.10, dependencies := 0.15 }

/-- The `STRATEGY_WEIGHTS` dictionary, as an association list in insertion
order. -/
def STRATEGY_WEIGHTS : List (String × Weights) :=
  [("smart_balance", smart_balance_weights),
   ("quick_wins", quick_wins_weights),
   ("high_impact", high_impact_weights),
   ("deadline_driven", deadline_driven_weights)]

/-- `STRATEGY_WEIGHTS.get(strategy, STRATEGY_WEIGHTS['smart_balance'])`. -/
def lookup_weights (strategy : String) : Weights :=
  (List.lookup strategy STRATEGY_WEIGHTS).getD smart_balance_weights

/-- `task.get(k)`: a missing key yields Python `None`. -/
def fieldGet (v : PyVal) : PyVal :=
  match v with
  | .absent => .noneV
  | x => x

/-- `task.get(k, d)`: a missing key yields the default `d`. -/
def fieldGetD (v d : PyVal) : PyVal :=
  match v with
  | .absent => d
  | x => x

/-- Python `float(x)` inside a `try`: numbers and numeric strings convert,
everything else raises (`none`). -/
def float_coerce : PyVal → Option ℚ
  | .num q => some q
  | .strNum q => some q
  | _ => none

/-- The effective dependency list of a field value:
`task.get('dependencies') or []` followed by the `isinstance(_, list)`
check (anything that is not a list collapses to `[]`). -/
def depsOrEmpty : PyVal → List ℤ
  | .listV l => l
  | _ => []

/-- Python `task_id in other_deps` where `other_deps` is a list of integer
ids and `task_id` may be `None`. -/
def id_in_deps (task_id : Option ℤ) (deps : List ℤ) : Bool :=
  deps.any (fun x => decide (some x = task_id))

/-- Python `v >= b` for a field value against a number: only numeric
values compare, everything else raises a `TypeError` (`none`). -/
def pyGeNum (v : PyVal) (b : ℚ) : Option Bool :=
  match v with
  | .num q => some (decide (b ≤ q))
  | _ => none

/-- Python `v <= b` for a field value against a number. -/
def pyLeNum (v : PyVal) (b : ℚ) : Option Bool :=
  match v with
  | .num q => some (decide (q ≤ b))
  | _ => none

/-- Python `round(x, 2)`. -/
def pyRound2 (x : ℚ) : ℚ := ((round (x * 100) : ℤ) : ℚ) / 100

/-- Python `round(x, 1)`. -/
def pyRound1 (x : ℚ) : ℚ := ((round (x * 10) : ℤ) : ℚ) / 10

/-- `parse_date`: normalize the heterogeneous `due_date` value to a
calendar date (`some` day number) or `None`. -/
def parse_date : DateVal → Option ℤ
  | .absent => none
  | .noneV => none
  | .dateV d => some d
  | .datetimeV d => some d
  | .strOk d => some d
  | .strBad => none
  | .otherV => none

/-- `calculate_urgency_score`: score plus explanation from due-date
proximity. `today` is the wall-clock date used by the source. -/
def calculate_urgency_score (today : ℤ) (task : Task) : ℚ × String :=
  match parse_date task.due_date with
  | none => (50.0, "No due date set (neutral urgency)")
  | some due_date =>
    let days_until_due : ℤ := due_date - today
    if days_until_due < 0 then
      let overdue_days := days_until_due.natAbs
      (100.0, s!"OVERDUE by {overdue_days} day(s)!")
    else if days_until_due = 0 then
      (95.0, "Due TODAY!")
    else if days_until_due ≤ 3 then
      (((94 - (days_until_due - 1) * 5 : ℤ) : ℚ),
        s!"Due in {days_until_due} day(s) - High urgency")
    else if days_until_due ≤ 7 then
      (((79 - (days_until_due - 4) * 7 : ℤ) : ℚ),
        s!"Due in {days_until_due} day(s) - Medium urgency")
    else if days_until_due ≤ 14 then
      (((49 - (days_until_due - 8) * 3 : ℤ) : ℚ),
        s!"Due in {days_until_due} day(s) - Low urgency")
    else
      (((max 10 (29 - (days_until_due - 15)) : ℤ) : ℚ),
        s!"Due in {days_until_due} day(s) - Not urgent")

/-- `calculate_importance_score`: clamp the 1-10 rating (default 5 on
missing/non-numeric) and scale to 0-100. `int(importance)` truncates; the
clamped value is in [1,10], where truncation equals the floor. -/
def calculate_importance_score (task : Task) : ℚ × String :=
  let importance0 := fieldGet task.importance
  let importance1 := if importance0 = PyVal.noneV then PyVal.num 5 else importance0
  let importance : ℚ :=
    match float_coerce importance1 with
    | some x => max 1 (min 10 x)
    | none => 5
  let score := importance * 10
  let il : ℤ := ⌊importance⌋
  let level : String :=
    if 8 ≤ importance then "Critical"
    else if 6 ≤ importance then "High"
    else if 4 ≤ importance then "Medium"
    else "Low"
  (score, s!"Importance: {level} ({il}/10)")

/-- `calculate_effort_score`: inverse effort scoring; hours default to 4
on missing/non-numeric and are floored at 0.5 when numeric. -/
def calculate_effort_score (task : Task) : ℚ × String :=
  let hours0 := fieldGet task.estimated_hours
  let hours1 := if hours0 = PyVal.noneV then PyVal.num 4 else hours0
  let hours : ℚ :=
    match float_coerce hours1 with
    | some x => max 0.5 x
    | none => 4
  let sc : ℚ × String :=
    if hours ≤ 1 then (100.0, "Quick task")
    else if hours ≤ 2 then (90.0, "Quick win")
    else if hours ≤ 4 then (80 - (hours - 2) * 5, "Half-day task")
    else if hours ≤ 8 then (70 - (hours - 4) * 7.5, "Full-day task")
    else if hours ≤ 16 then (40 - (hours - 8) * 2.5, "Multi-day task")
    else (max 10 (20 - (hours - 16) * 0.5), "Major effort")
  (sc.1, s!"{sc.2} ({hours}h estimated)")

/-- `calculate_dependency_score`: 20 when the task has dependencies of its
own, otherwise by how many tasks of the set list this task's id. -/
def calculate_dependency_score (task : Task) (all_tasks : List Task) : ℚ × String :=
  let task_id := task.id
  let task_dependencies := depsOrEmpty task.dependencies
  let blocking_count : ℕ :=
    all_tasks.countP (fun other_task => id_in_deps task_id (depsOrEmpty other_task.dependencies))
  let has_unmet_deps := 0 < task_dependencies.length
  let nd := task_dependencies.length
  if has_unmet_deps then
    (20.0, s!"Blocked by {nd} other task(s)")
  else if 3 ≤ blocking_count then
    (100.0, s!"Blocks {blocking_count} tasks - Critical path!")
  else if blocking_count = 2 then
    (80.0, s!"Blocks {blocking_count} tasks")
  else if blocking_count = 1 then
    (60.0, s!"Blocks {blocking_count} task")
  else
    (40.0, "Independent task")

/-- `calculate_priority_score`: blend the four component scores with the
strategy's weights and round to 2 decimals. -/
def calculate_priority_score (today : ℤ) (task : Task) (all_tasks : List Task)
    (strategy : String) : ℚ :=
  let weights := lookup_weights strategy
  let urgency_score := (calculate_urgency_score today task).1
  let importance_score := (calculate_importance_score task).1
  let effort_score := (calculate_effort_score task).1
  let dependency_score := (calculate_dependency_score task all_tasks).1
  pyRound2 (urgency_score * weights.urgency +
    importance_score * weights.importance +
    effort_score * weights.effort +
    dependency_score * weights.dependencies)

/-- `get_score_explanation`: the four factors with weighted contributions,
sorted by weight descending (stably) and joined with a separator. -/
def get_score_explanation (today : ℤ) (task : Task) (all_tasks : List Task)
    (strategy : String) : String :=
  let weights := lookup_weights strategy
  let u := calculate_urgency_score today task
  let im := calculate_importance_score task
  let e := calculate_effort_score task
  let d := calculate_dependency_score task all_tasks
  let factors : List (String × ℚ × String × ℚ) :=
    [("Urgency", u.1, u.2, weights.urgency),
     ("Importance", im.1, im.2, weights.importance),
     ("Effort", e.1, e.2, weights.effort),
     ("Dependencies", d.1, d.2, weights.dependencies)]
  let sorted := List.insertionSort (fun a b => b.2.2.2 ≤ a.2.2.2) factors
  let parts := sorted.map (fun f =>
    let nm := f.1
    let ex := f.2.2.1
    let contribution := pyRound1 (f.2.1 * f.2.2.2)
    s!"{nm}: {ex} (+{contribution})")
  String.intercalate " | " parts

/-- State threaded through the depth-first search of
`detect_circular_dependencies`: the globally `visited` set, the
`rec_stack` of nodes on the current recursion path, and the list of
`cycles` found so far (sets are modelled as lists, used only through
membership). -/
structure DfsState where
  visited : List (Option ℤ)
  recStack : List (Option ℤ)
  cycles : List (List (Option ℤ))
deriving DecidableEq, Repr

/-- Insert-or-update for the adjacency dictionary: Python dict assignment
keeps the key's first-insertion position and overwrites its value. -/
def upsert (g : List (Option ℤ × List ℤ)) (k : Option ℤ) (v : List ℤ) :
    List (Option ℤ × List ℤ) :=
  match g with
  | [] => [(k, v)]
  | (k', v') :: rest => if k' = k then (k, v) :: rest else (k', v') :: upsert rest k v

/-- The adjacency dictionary `graph`: task id to declared dependency ids. -/
def build_graph (tasks : List Task) : List (Option ℤ × List ℤ) :=
  tasks.foldl (fun g t => upsert g t.id (depsOrEmpty t.dependencies)) []

/-- `graph.get(node, [])`. -/
def graph_get (g : List (Option ℤ × List ℤ)) (node : Option ℤ) : List ℤ :=
  (List.lookup node g).getD []

/-- `node in graph`. -/
def graph_has (g : List (Option ℤ × List ℤ)) (node : Option ℤ) : Bool :=
  (List.lookup node g).isSome

/-- `path[path.index(node):]`: the suffix of `path` from the first
occurrence of `node` (callers guard with `node in path`). -/
def suffixFrom (node : Option ℤ) : List (Option ℤ) → List (Option ℤ)
  | [] => []
  | x :: xs => if x = node then x :: xs else suffixFrom node xs

/-- The recursive `dfs` helper of `detect_circular_dependencies`.  The
`path` list is copied into every child call exactly as in the source
(`path.copy()`), while `visited`, `rec_stack` and `cycles` are the shared
mutable state, threaded through `DfsState`.  The extra `fuel` argument
only forces termination: the top-level caller passes more fuel than the
recursion can ever consume (each nesting level either returns immediately
or permanently marks an unvisited node visited), so the `0` branch is
unreachable from `detect_circular_dependencies`. -/
def dfs (g : List (Option ℤ × List ℤ)) :
    ℕ → Option ℤ → List (Option ℤ) → DfsState → DfsState
  | 0, _, _, st => st
  | fuel + 1, node, path, st =>
    if node ∈ st.recStack then
      if node ∈ path then
        { st with cycles := st.cycles ++ [suffixFrom node path ++ [node]] }
      else st
    else if node ∈ st.visited then st
    else
      let st1 : DfsState :=
        { visited := st.visited ++ [node], recStack := node :: st.recStack,
          cycles := st.cycles }
      let path1 := path ++ [node]
      let st2 := (graph_get g node).foldl
        (fun acc nb => if graph_has g (some nb) then dfs g fuel (some nb) path1 acc else acc)
        st1
      { st2 with recStack := st2.recStack.erase node }

/-- `detect_circular_dependencies`: build the graph and run `dfs` from
every not-yet-visited key, in insertion order. -/
def detect_circular_dependencies (tasks : List Task) : List (List (Option ℤ)) :=
  let graph := build_graph tasks
  let final := graph.foldl
    (fun st kv => if kv.1 ∈ st.visited then st else dfs graph (graph.length + 1) kv.1 [] st)
    { visited := [], recStack := [], cycles := [] }
  final.cycles

/-- A scored task: the input record plus the three computed fields. -/
structure ScoredTask where
  task : Task
  priority_score : ℚ
  explanation : String
  priority_level : String
deriving DecidableEq, Repr

/-- Result record of `analyze_tasks`. -/
structure AnalysisResult where
  tasks : List ScoredTask
  circular_dependencies : List (List (Option ℤ))
  strategy_used : String
  total_tasks : ℕ
deriving DecidableEq, Repr

/-- Body of the scoring loop in `analyze_tasks`: copy the task and attach
`priority_score`, `explanation` and `priority_level`. -/
def score_task (today : ℤ) (tasks : List Task) (strategy : String) (task : Task) :
    ScoredTask :=
  let ps := calculate_priority_score today task tasks strategy
  { task := task
    priority_score := ps
    explanation := get_score_explanation today task tasks strategy
    priority_level := if 70 ≤ ps then "high" else if 40 ≤ ps then "medium" else "low" }

/-- `analyze_tasks`: validate the strategy (unknown names fall back to
`smart_balance`), detect cycles, score every task and sort by score
descending.  Python's `list.sort(key=..., reverse=True)` is a stable
descending sort, modelled by `List.insertionSort` with the relation
`b.priority_score ≤ a.priority_score` (an element is inserted before the
first element whose key is not larger, which preserves the input order of
equal keys exactly as a stable sort does). -/
def analyze_tasks (today : ℤ) (tasks : List Task) (strategy0 : String) : AnalysisResult :=
  let strategy := if (List.lookup strategy0 STRATEGY_WEIGHTS).isSome then strategy0
    else "smart_balance"
  let circular_deps := detect_circular_dependencies tasks
  let scored_tasks := tasks.map (score_task today tasks strategy)
  let sorted := List.insertionSort (fun a b => b.priority_score ≤ a.priority_score) scored_tasks
  { tasks := sorted
    circular_dependencies := circular_deps
    strategy_used := strategy
    total_tasks := tasks.length }

/-- One entry of the `get_suggestions` result. -/
structure Suggestion where
  rank : ℕ
  task : ScoredTask
  reason : String
deriving DecidableEq, Repr

/-- Character-sequence prefix test (helper for the substring check). -/
def startsWithSeq : List Char → List Char → Bool
  | [], _ => true
  | _ :: _, [] => false
  | p :: ps, x :: xs => p == x && startsWithSeq ps xs

/-- Python `pat in s` on strings, over the character lists. -/
def containsSeq (pat : List Char) : List Char → Bool
  | [] => startsWithSeq pat []
  | x :: xs => startsWithSeq pat (x :: xs) || containsSeq pat xs

/-- `generate_suggestion_reason`: synthesize the reason string for one
suggested task.  The comparisons `importance >= 8` and `hours <= 2` are
performed on the raw field values with no `try/except`, so a present but
null or non-numeric value raises a `TypeError`, modelled by `none`. -/
def generate_suggestion_reason (today : ℤ) (task : ScoredTask) (rank : ℕ) :
    Option String := do
  let score := task.priority_score
  let explanation := task.explanation
  let due_date := parse_date task.task.due_date
  let reasons0 : List String :=
    match due_date with
    | some due =>
      let days_until : ℤ := due - today
      if days_until < 0 then
        let od := days_until.natAbs
        [s!"overdue by {od} day(s)"]
      else if days_until = 0 then ["due today"]
      else if days_until ≤ 3 then [s!"due in {days_until} day(s)"]
      else []
    | none => []
  let impHigh ← pyGeNum (fieldGetD task.task.importance (.num 5)) 8
  let reasons1 := if impHigh then reasons0 ++ ["marked as highly important"] else reasons0
  let hrsLow ← pyLeNum (fieldGetD task.task.estimated_hours (.num 4)) 2
  let reasons2 := if hrsLow then reasons1 ++ ["a quick win you can complete fast"] else reasons1
  let reasons := if containsSeq "Blocks".toList explanation.toList then
      reasons2 ++ ["blocking other tasks from starting"]
    else reasons2
  if reasons ≠ [] then
    let rt := (String.intercalate ", " reasons).capitalize
    return s!"#{rank} Priority (Score: {score}): {rt}."
  else
    return s!"#{rank} Priority (Score: {score}): Good balance of urgency, importance, and effort."

/-- The `enumerate(top_tasks, 1)` loop of `get_suggestions`; fails
(`none`) as soon as one reason generation raises. -/
def build_suggestions (today : ℤ) : ℕ → List ScoredTask → Option (List Suggestion)
  | _, [] => some []
  | i, t :: ts => do
    let reason ← generate_suggestion_reason today t i
    let rest ← build_suggestions today (i + 1) ts
    some ({ rank := i, task := t, reason := reason } :: rest)

/-- `get_suggestions`: analyze, take the top `count` tasks and attach a
rank and reason to each. -/
def get_suggestions (today : ℤ) (tasks : List Task) (strategy : String) (count : ℕ) :
    Option (List Suggestion) :=
  let analysis := analyze_tasks today tasks strategy
  let top_tasks := analysis.tasks.take count
  build_suggestions today 1 top_tasks

/-- Modelled from the claim's (spec's) urgency table: the scoring policy
as an integer function of `d` = days-until-due (all table entries are
integers). -/
def specUrgencyInt (d : ℤ) : ℤ :=
  if d < 0 then 100
  else if d = 0 then 95
  else if 1 ≤ d ∧ d ≤ 3 then 94 - (d - 1) * 5
  else if 4 ≤ d ∧ d ≤ 7 then 79 - (d - 4) * 7
  else if 8 ≤ d ∧ d ≤ 14 then 49 - (d - 8) * 3
  else max 10 (29 - (d - 15))

/-- Modelled from the claim's (spec's) urgency table, for comparison with
`calculate_urgency_score`. -/
def specUrgencyTable (d : ℤ) : ℚ := ((specUrgencyInt d : ℤ) : ℚ)

/-! ### Bounds of the component scores -/

lemma urgency_bounds (today : ℤ) (task : Task) :
    10 ≤ (calculate_urgency_score today task).1 ∧ (calculate_urgency_score today task).1 ≤ 100 := by
  unfold calculate_urgency_score
  cases hpd : parse_date task.due_date with
  | none => norm_num
  | some due =>
    dsimp only
    split_ifs with h1 h2 h3 h4 h5
    · exact ⟨by norm_num, by norm_num⟩
    · exact ⟨by norm_num, by norm_num⟩
    · constructor
      · show (10:ℚ) ≤ ((94 - (due - today - 1) * 5 : ℤ) : ℚ)
        exact_mod_cast (by omega : (10:ℤ) ≤ 94 - (due - today - 1) * 5)
      · show ((94 - (due - today - 1) * 5 : ℤ) : ℚ) ≤ 100
        exact_mod_cast (by omega : (94 - (due - today - 1) * 5 : ℤ) ≤ 100)
    · constructor
      · show (10:ℚ) ≤ ((79 - (due - today - 4) * 7 : ℤ) : ℚ)
        exact_mod_cast (by omega : (10:ℤ) ≤ 79 - (due - today - 4) * 7)
      · show ((79 - (due - today - 4) * 7 : ℤ) : ℚ) ≤ 100
        exact_mod_cast (by omega : (79 - (due - today - 4) * 7 : ℤ) ≤ 100)
    · constructor
      · show (10:ℚ) ≤ ((49 - (due - today - 8) * 3 : ℤ) : ℚ)
        exact_mod_cast (by omega : (10:ℤ) ≤ 49 - (due - today - 8) * 3)
      · show ((49 - (due - today - 8) * 3 : ℤ) : ℚ) ≤ 100
        exact_mod_cast (by omega : (49 - (due - today - 8) * 3 : ℤ) ≤ 100)
    · constructor
      · show (10:ℚ) ≤ ((max 10 (29 - (due - today - 15)) : ℤ) : ℚ)
        exact_mod_cast (by omega : (10:ℤ) ≤ max 10 (29 - (due - today - 15)))
      · show ((max 10 (29 - (due - today - 15)) : ℤ) : ℚ) ≤ 100
        exact_mod_cast (by omega : (max 10 (29 - (due - today - 15)) : ℤ) ≤ 100)

lemma importance_bounds (task : Task) :
    10 ≤ (calculate_importance_score task).1 ∧ (calculate_importance_score task).1 ≤ 100 := by
  unfold calculate_importance_score
  dsimp only
  cases hfc : float_coerce (if fieldGet task.importance = PyVal.noneV then PyVal.num 5
      else fieldGet task.importance) with
  | none => norm_num
  | some x =>
    dsimp only
    have h1 : (1:ℚ) ≤ max 1 (min 10 x) := le_max_left (1:ℚ) (min 10 x)
    have h2 : max 1 (min 10 x) ≤ 10 :=
      max_le (by norm_num) (min_le_left (10:ℚ) x)
    exact ⟨by linarith, by linarith⟩

lemma effort_bounds (task : Task) :
    10 ≤ (calculate_effort_score task).1 ∧ (calculate_effort_score task).1 ≤ 100 := by
  unfold calculate_effort_score
  dsimp only
  cases hfc : float_coerce (if fieldGet task.estimated_hours = PyVal.noneV then PyVal.num 4
      else fieldGet task.estimated_hours) with
  | none => norm_num
  | some x =>
    dsimp only
    have h05 : (0.5 : ℚ) ≤ max 0.5 x := le_max_left _ _
    set h : ℚ := max 0.5 x with hh
    split_ifs with h1 h2 h3 h4 h5 <;> dsimp only
    · exact ⟨by norm_num, by norm_num⟩
    · exact ⟨by norm_num, by norm_num⟩
    · exact ⟨by linarith, by linarith⟩
    · exact ⟨by linarith, by linarith⟩
    · exact ⟨by linarith, by linarith⟩
    · constructor
      · exact le_max_left (10:ℚ) (20 - (h - 16) * 0.5)
      · refine max_le (by norm_num) (by push_neg at h5; linarith)

lemma dependency_bounds (task : Task) (all_tasks : List Task) :
    20 ≤ (calculate_dependency_score task all_tasks).1 ∧
    (calculate_dependency_score task all_tasks).1 ≤ 100 := by
  unfold calculate_dependency_score
  dsimp only
  split_ifs <;> norm_num

lemma lookup_weights_mem (s : String) :
    lookup_weights s = smart_balance_weights ∨ lookup_weights s = quick_wins_weights ∨
    lookup_weights s = high_impact_weights ∨ lookup_weights s = deadline_driven_weights := by
  unfold lookup_weights STRATEGY_WEIGHTS
  by_cases h1 : s = "smart_balance"
  · subst h1; simp [List.lookup]
  by_cases h2 : s = "quick_wins"
  · subst h2; simp [List.lookup]
  by_cases h3 : s = "high_impact"
  · subst h3; simp [List.lookup]
  by_cases h4 : s = "deadline_driven"
  · subst h4; simp [List.lookup]
  have e1 : (s == "smart_balance") = false := beq_eq_false_iff_ne.mpr h1
  have e2 : (s == "quick_wins") = false := beq_eq_false_iff_ne.mpr h2
  have e3 : (s == "high_impact") = false := beq_eq_false_iff_ne.mpr h3
  have e4 : (s == "deadline_driven") = false := beq_eq_false_iff_ne.mpr h4
  simp [List.lookup, e1, e2, e3, e4]

lemma weights_props (s : String) :
    0 ≤ (lookup_weights s).urgency ∧ 0 ≤ (lookup_weights s).importance ∧
    0 ≤ (lookup_weights s).effort ∧ 0 ≤ (lookup_weights s).dependencies ∧
    (lookup_weights s).urgency + (lookup_weights s).importance +
      (lookup_weights s).effort + (lookup_weights s).dependencies = 1 := by
  rcases lookup_weights_mem s with h | h | h | h <;> rw [h] <;>
    norm_num [smart_balance_weights, quick_wins_weights, high_impact_weights,
      deadline_driven_weights]

lemma round_monotone {x y : ℚ} (h : x ≤ y) : round x ≤ round y := by
  rw [round_eq, round_eq]
  exact Int.floor_le_floor (by linarith)

lemma pyRound2_ge {x : ℚ} {a : ℤ} (h : (a : ℚ) ≤ x) : (a : ℚ) ≤ pyRound2 x := by
  unfold pyRound2
  have h1 : (a * 100 : ℤ) ≤ round (x * 100) := by
    have h2 := round_monotone (x := ((a * 100 : ℤ) : ℚ)) (y := x * 100) (by push_cast; linarith)
    rwa [round_intCast] at h2
  rw [le_div_iff₀ (by norm_num : (0:ℚ) < 100)]
  exact_mod_cast h1

lemma pyRound2_le {x : ℚ} {a : ℤ} (h : x ≤ (a : ℚ)) : pyRound2 x ≤ (a : ℚ) := by
  unfold pyRound2
  have h1 : round (x * 100) ≤ (a * 100 : ℤ) := by
    have h2 := round_monotone (x := x * 100) (y := ((a * 100 : ℤ) : ℚ)) (by push_cast; linarith)
    rwa [round_intCast] at h2
  rw [div_le_iff₀ (by norm_num : (0:ℚ) < 100)]
  exact_mod_cast h1

lemma priority_score_bounds (today : ℤ) (task : Task) (all_tasks : List Task) (strategy : String) :
    10 ≤ calculate_priority_score today task all_tasks strategy ∧
    calculate_priority_score today task all_tasks strategy ≤ 100 := by
  obtain ⟨hu1, hu2⟩ := urgency_bounds today task
  obtain ⟨hi1, hi2⟩ := importance_bounds task
  obtain ⟨he1, he2⟩ := effort_bounds task
  obtain ⟨hd1, hd2⟩ := dependency_bounds task all_tasks
  obtain ⟨w1, w2, w3, w4, wsum⟩ := weights_props strategy
  unfold calculate_priority_score
  dsimp only
  set u := (calculate_urgency_score today task).1
  set im := (calculate_importance_score task).1
  set e := (calculate_effort_score task).1
  set d := (calculate_dependency_score task all_tasks).1
  set w := lookup_weights strategy
  have p1 : 10 * w.urgency ≤ u * w.urgency := mul_le_mul_of_nonneg_right hu1 w1
  have p2 : 10 * w.importance ≤ im * w.importance := mul_le_mul_of_nonneg_right hi1 w2
  have p3 : 10 * w.effort ≤ e * w.effort := mul_le_mul_of_nonneg_right he1 w3
  have p4 : 20 * w.dependencies ≤ d * w.dependencies := mul_le_mul_of_nonneg_right hd1 w4
  have q1 : u * w.urgency ≤ 100 * w.urgency := mul_le_mul_of_nonneg_right hu2 w1
  have q2 : im * w.importance ≤ 100 * w.importance := mul_le_mul_of_nonneg_right hi2 w2
  have q3 : e * w.effort ≤ 100 * w.effort := mul_le_mul_of_nonneg_right he2 w3
  have q4 : d * w.dependencies ≤ 100 * w.dependencies := mul_le_mul_of_nonneg_right hd2 w4
  constructor
  · exact_mod_cast pyRound2_ge (a := 10) (by push_cast; linarith)
  · exact_mod_cast pyRound2_le (a := 100) (by push_cast; linarith)

/-- Claim C6: for every task, task set and strategy name, each of the four
component scores lies in [0, 100] and the blended priority score returned
by `calculate_priority_score` lies in [0, 100]. -/
theorem claim_C6 (today : ℤ) (task : Task) (all_tasks : List Task) (strategy : String) :
    (0 ≤ (calculate_urgency_score today task).1 ∧ (calculate_urgency_score today task).1 ≤ 100) ∧
    (0 ≤ (calculate_importance_score task).1 ∧ (calculate_importance_score task).1 ≤ 100) ∧
    (0 ≤ (calculate_effort_score task).1 ∧ (calculate_effort_score task).1 ≤ 100) ∧
    (0 ≤ (calculate_dependency_score task all_tasks).1 ∧
      (calculate_dependency_score task all_tasks).1 ≤ 100) ∧
    (0 ≤ calculate_priority_score today task all_tasks strategy ∧
      calculate_priority_score today task all_tasks strategy ≤ 100) := by
  obtain ⟨hu1, hu2⟩ := urgency_bounds today task
  obtain ⟨hi1, hi2⟩ := importance_bounds task
  obtain ⟨he1, he2⟩ := effort_bounds task
  obtain ⟨hd1, hd2⟩ := dependency_bounds task all_tasks
  obtain ⟨hp1, hp2⟩ := priority_score_bounds today task all_tasks strategy
  exact ⟨⟨by linarith, hu2⟩, ⟨by linarith, hi2⟩, ⟨by linarith, he2⟩,
    ⟨by linarith, hd2⟩, ⟨by linarith, hp2⟩⟩

/-- Claim C9: every component score is in fact at least 10 (the dependency
component at least 20), so the blended priority score is at least 10 under
every strategy (each preset's weights sum to 1, and unknown names fall
back to a preset) — a strictly tighter lower bound than the spec's 0. -/
theorem claim_C9 (today : ℤ) (task : Task) (all_tasks : List Task) (strategy : String) :
    10 ≤ (calculate_urgency_score today task).1 ∧
    10 ≤ (calculate_importance_score task).1 ∧
    10 ≤ (calculate_effort_score task).1 ∧
    20 ≤ (calculate_dependency_score task all_tasks).1 ∧
    10 ≤ calculate_priority_score today task all_tasks strategy :=
  ⟨(urgency_bounds today task).1, (importance_bounds task).1, (effort_bounds task).1,
    (dependency_bounds task all_tasks).1, (priority_score_bounds today task all_tasks strategy).1⟩

/-! ### Dependency score (claim C1) -/

/-- A generic sample task used for witness instantiations. -/
def sampleTask : Task :=
  { id := some 1, due_date := .dateV 2, importance := .num 7,
    estimated_hours := .num 3, dependencies := .listV [] }

/-- Claim C1: a task with a non-empty dependency list scores exactly 20
(whether or not the listed ids exist in the set); otherwise the score is
determined solely by how many tasks of the set list this task's id among
their dependencies (≥3 → 100, 2 → 80, 1 → 60, 0 → 40). -/
theorem claim_C1 (task : Task) (all_tasks : List Task) :
    (depsOrEmpty task.dependencies ≠ [] →
      (calculate_dependency_score task all_tasks).1 = 20) ∧
    (depsOrEmpty task.dependencies = [] →
      (calculate_dependency_score task all_tasks).1 =
        (let bc := all_tasks.countP
          (fun other => id_in_deps task.id (depsOrEmpty other.dependencies))
        if 3 ≤ bc then 100 else if bc = 2 then 80 else if bc = 1 then 60 else 40)) := by
  unfold calculate_dependency_score
  dsimp only
  constructor
  · intro hne
    have hlen : 0 < (depsOrEmpty task.dependencies).length :=
      List.length_pos.mpr hne
    rw [if_pos hlen]
    norm_num
  · intro he
    rw [he]
    dsimp only [List.length_nil]
    rw [if_neg (by omega : ¬ (0:ℕ) < 0)]
    split_ifs <;> norm_num

def c1_blocked : Task :=
  { id := some 1, due_date := .absent, importance := .absent,
    estimated_hours := .absent, dependencies := .listV [2, 99] }

def c1_blocker : Task :=
  { id := some 2, due_date := .absent, importance := .absent,
    estimated_hours := .absent, dependencies := .listV [] }

theorem claim_C1_witness :
    (calculate_dependency_score c1_blocked [c1_blocked, c1_blocker]).1 = 20 ∧
    (calculate_dependency_score c1_blocker [c1_blocked, c1_blocker]).1 = 60 := by
  constructor
  · exact (claim_C1 c1_blocked [c1_blocked, c1_blocker]).1 (by decide)
  · have h := (claim_C1 c1_blocker [c1_blocked, c1_blocker]).2 (by decide)
    rw [h]
    decide

/-! ### Urgency table (claims C4 and C10) -/

lemma urgency_score_eq (today : ℤ) (task : Task) (due : ℤ)
    (hd : parse_date task.due_date = some due) :
    (calculate_urgency_score today task).1 = specUrgencyTable (due - today) := by
  unfold calculate_urgency_score specUrgencyTable specUrgencyInt
  rw [hd]
  dsimp only
  split_ifs <;> first | rfl | (exfalso; omega) | norm_num

lemma specUrgencyInt_antitone {a b : ℤ} (h : a ≤ b) :
    specUrgencyInt b ≤ specUrgencyInt a := by
  unfold specUrgencyInt
  split_ifs <;> omega

/-- Claim C4: for a parsable due date, the urgency component equals the
spec's table at `d` = days-until-due, and it is 50 when the due date is
absent or unparsable. -/
theorem claim_C4 (today : ℤ) (task : Task) :
    (∀ due : ℤ, parse_date task.due_date = some due →
      (calculate_urgency_score today task).1 = specUrgencyTable (due - today)) ∧
    (parse_date task.due_date = none → (calculate_urgency_score today task).1 = 50) := by
  constructor
  · exact fun due hd => urgency_score_eq today task due hd
  · intro h
    unfold calculate_urgency_score
    rw [h]
    try norm_num

def c4_due : Task :=
  { id := some 1, due_date := .dateV 5, importance := .absent,
    estimated_hours := .absent, dependencies := .listV [] }

def c4_baddate : Task :=
  { id := some 1, due_date := .strBad, importance := .absent,
    estimated_hours := .absent, dependencies := .listV [] }

theorem claim_C4_witness :
    (calculate_urgency_score 0 c4_due).1 = specUrgencyTable 5 ∧
    (calculate_urgency_score 0 c4_baddate).1 = 50 := by
  constructor
  · have h := (claim_C4 0 c4_due).1 5 (by decide)
    simpa using h
  · exact (claim_C4 0 c4_baddate).2 (by decide)

/-- Claim C10: the urgency component is weakly decreasing in
days-until-due (overdue tasks get the maximal 100), and the effort
component is weakly decreasing in the effective estimated hours on
[0.5, ∞). -/
theorem claim_C10 :
    (∀ (today : ℤ) (t1 t2 : Task) (d1 d2 : ℤ),
      parse_date t1.due_date = some (today + d1) →
      parse_date t2.due_date = some (today + d2) → d1 ≤ d2 →
      (calculate_urgency_score today t2).1 ≤ (calculate_urgency_score today t1).1) ∧
    (∀ (today : ℤ) (t : Task) (due : ℤ), parse_date t.due_date = some due →
      due - today < 0 → (calculate_urgency_score today t).1 = 100) ∧
    (∀ (today : ℤ) (t : Task), (calculate_urgency_score today t).1 ≤ 100) ∧
    (∀ (t1 t2 : Task) (h1 h2 : ℚ), t1.estimated_hours = .num h1 →
      t2.estimated_hours = .num h2 → 1/2 ≤ h1 → h1 ≤ h2 →
      (calculate_effort_score t2).1 ≤ (calculate_effort_score t1).1) := by
  refine ⟨?_, ?_, ?_, ?_⟩
  · intro today t1 t2 d1 d2 hp1 hp2 hle
    rw [urgency_score_eq today t1 _ hp1, urgency_score_eq today t2 _ hp2]
    unfold specUrgencyTable
    exact_mod_cast specUrgencyInt_antitone
      (by omega : today + d1 - today ≤ today + d2 - today)
  · intro today t due hp hneg
    rw [urgency_score_eq today t due hp]
    unfold specUrgencyTable specUrgencyInt
    rw [if_pos hneg]
    norm_num
  · exact fun today t => (urgency_bounds today t).2
  · intro t1 t2 h1 h2 he1 he2 hge hle
    have g1 : (0.5:ℚ) ≤ h1 := by rw [show (0.5:ℚ) = 1/2 by norm_num]; exact hge
    have g2 : (0.5:ℚ) ≤ h2 := le_trans g1 hle
    unfold calculate_effort_score
    rw [he1, he2]
    dsimp only [fieldGet]
    have e1 : (PyVal.num h1 = PyVal.noneV) = False := by simp
    have e2 : (PyVal.num h2 = PyVal.noneV) = False := by simp
    simp only [e1, e2, if_false, float_coerce]
    rw [max_eq_right g1, max_eq_right g2]
    split_ifs <;> dsimp only <;>
      first
        | linarith
        | exact max_le_max le_rfl (by linarith)
        | exact max_le (by linarith) (by linarith)

def c10_near : Task :=
  { id := some 1, due_date := .dateV 2, importance := .absent,
    estimated_hours := .num 1, dependencies := .listV [] }

def c10_far : Task :=
  { id := some 2, due_date := .dateV 7, importance := .absent,
    estimated_hours := .num 9, dependencies := .listV [] }

theorem claim_C10_witness :
    (calculate_urgency_score 0 c10_far).1 ≤ (calculate_urgency_score 0 c10_near).1 ∧
    (calculate_effort_score c10_far).1 ≤ (calculate_effort_score c10_near).1 := by
  constructor
  · exact claim_C10.1 0 c10_near c10_far 2 7 (by decide) (by decide) (by norm_num)
  · exact claim_C10.2.2.2 c10_near c10_far 1 9 rfl rfl (by norm_num) (by norm_num)

/-! ### Strategy fallback (claim C7) and determinism (claim C8) -/

lemma lookup_unknown_none {s : String} (h1 : s ≠ "smart_balance") (h2 : s ≠ "quick_wins")
    (h3 : s ≠ "high_impact") (h4 : s ≠ "deadline_driven") :
    List.lookup s STRATEGY_WEIGHTS = none := by
  have e1 : (s == "smart_balance") = false := beq_eq_false_iff_ne.mpr h1
  have e2 : (s == "quick_wins") = false := beq_eq_false_iff_ne.mpr h2
  have e3 : (s == "high_impact") = false := beq_eq_false_iff_ne.mpr h3
  have e4 : (s == "deadline_driven") = false := beq_eq_false_iff_ne.mpr h4
  simp [STRATEGY_WEIGHTS, List.lookup, e1, e2, e3, e4]

lemma lookup_weights_unknown {s : String} (h1 : s ≠ "smart_balance") (h2 : s ≠ "quick_wins")
    (h3 : s ≠ "high_impact") (h4 : s ≠ "deadline_driven") :
    lookup_weights s = smart_balance_weights := by
  unfold lookup_weights
  rw [lookup_unknown_none h1 h2 h3 h4]
  rfl

lemma lookup_weights_smart : lookup_weights "smart_balance" = smart_balance_weights := rfl

/-- Claim C7: any strategy string other than the four preset names
behaves exactly like `smart_balance` in scoring, explanation and
analysis, and `analyze_tasks` reports `smart_balance` as the effective
strategy. -/
theorem claim_C7 (s : String) (h1 : s ≠ "smart_balance") (h2 : s ≠ "quick_wins")
    (h3 : s ≠ "high_impact") (h4 : s ≠ "deadline_driven") (today : ℤ) (task : Task)
    (tasks : List Task) :
    calculate_priority_score today task tasks s =
      calculate_priority_score today task tasks "smart_balance" ∧
    get_score_explanation today task tasks s =
      get_score_explanation today task tasks "smart_balance" ∧
    analyze_tasks today tasks s = analyze_tasks today tasks "smart_balance" ∧
    (analyze_tasks today tasks s).strategy_used = "smart_balance" := by
  have hw : lookup_weights s = lookup_weights "smart_balance" := by
    rw [lookup_weights_unknown h1 h2 h3 h4, lookup_weights_smart]
  have hn := lookup_unknown_none h1 h2 h3 h4
  refine ⟨?_, ?_, ?_, ?_⟩
  · unfold calculate_priority_score
    rw [hw]
  · unfold get_score_explanation
    rw [hw]
  · unfold analyze_tasks
    rw [hn]
    simp only [Option.isSome_none, Bool.false_eq_true, if_false, ite_self]
  · unfold analyze_tasks
    rw [hn]
    simp only [Option.isSome_none, Bool.false_eq_true, if_false, ite_self]

theorem claim_C7_witness :
    calculate_priority_score 0 sampleTask [sampleTask] "bogus" =
      calculate_priority_score 0 sampleTask [sampleTask] "smart_balance" ∧
    get_score_explanation 0 sampleTask [sampleTask] "bogus" =
      get_score_explanation 0 sampleTask [sampleTask] "smart_balance" ∧
    analyze_tasks 0 [sampleTask] "bogus" = analyze_tasks 0 [sampleTask] "smart_balance" ∧
    (analyze_tasks 0 [sampleTask] "bogus").strategy_used = "smart_balance" :=
  claim_C7 "bogus" (by decide) (by decide) (by decide) (by decide) 0 sampleTask [sampleTask]

/-- Claim C8: `analyze_tasks` is a pure function of the task set, the
strategy and the fixed `today` — identical inputs give identical outputs
(scores, explanations, levels, cycles and ordering). -/
theorem claim_C8 (tasks1 tasks2 : List Task) (s1 s2 : String) (d1 d2 : ℤ)
    (ht : tasks1 = tasks2) (hs : s1 = s2) (hd : d1 = d2) :
    analyze_tasks d1 tasks1 s1 = analyze_tasks d2 tasks2 s2 := by
  subst ht
  subst hs
  subst hd
  rfl

theorem claim_C8_witness :
    analyze_tasks 0 [sampleTask] "smart_balance" = analyze_tasks 0 [sampleTask] "smart_balance" :=
  claim_C8 [sampleTask] [sampleTask] "smart_balance" "smart_balance" 0 0 rfl rfl rfl

/-! ### Sorting (claim C5) -/

instance : IsTotal ScoredTask (fun a b => b.priority_score ≤ a.priority_score) :=
  ⟨fun a b => le_total b.priority_score a.priority_score⟩

instance : IsTrans ScoredTask (fun a b => b.priority_score ≤ a.priority_score) :=
  ⟨fun _ _ _ hab hbc => le_trans hbc hab⟩

lemma filter_orderedInsert_eq (q : ℚ) (a : ScoredTask) (l : List ScoredTask)
    (ha : a.priority_score = q) :
    (List.orderedInsert (fun x y => y.priority_score ≤ x.priority_score) a l).filter
        (fun t => decide (t.priority_score = q)) =
      a :: l.filter (fun t => decide (t.priority_score = q)) := by
  have hda : decide (a.priority_score = q) = true := by simp [ha]
  induction l with
  | nil => simp [List.orderedInsert, hda]
  | cons b l ih =>
    by_cases hr : b.priority_score ≤ a.priority_score
    · simp [List.orderedInsert, hr, hda]
    · have hbq : decide (b.priority_score = q) = false := by
        simp only [decide_eq_false_iff_not]
        intro h
        exact hr (by rw [h, ← ha])
      simp [List.orderedInsert, hr, hbq, ih]

lemma filter_orderedInsert_ne (q : ℚ) (a : ScoredTask) (l : List ScoredTask)
    (ha : ¬ a.priority_score = q) :
    (List.orderedInsert (fun x y => y.priority_score ≤ x.priority_score) a l).filter
        (fun t => decide (t.priority_score = q)) =
      l.filter (fun t => decide (t.priority_score = q)) := by
  have hda : decide (a.priority_score = q) = false := by simp [ha]
  induction l with
  | nil => simp [List.orderedInsert, hda]
  | cons b l ih =>
    by_cases hr : b.priority_score ≤ a.priority_score
    · simp [List.orderedInsert, hr, hda]
    · simp [List.orderedInsert, hr, List.filter_cons, ih]

lemma filter_insertionSort (q : ℚ) (l : List ScoredTask) :
    (List.insertionSort (fun x y => y.priority_score ≤ x.priority_score) l).filter
        (fun t => decide (t.priority_score = q)) =
      l.filter (fun t => decide (t.priority_score = q)) := by
  induction l with
  | nil => rfl
  | cons a l ih =>
    simp only [List.insertionSort]
    by_cases ha : a.priority_score = q
    · rw [filter_orderedInsert_eq q a _ ha, ih, List.filter_cons,
        if_pos (by simpa using ha)]
    · rw [filter_orderedInsert_ne q a _ ha, ih, List.filter_cons,
        if_neg (by simpa using ha)]

/-- Claim C5: `analyze_tasks` returns exactly the input tasks (scored),
sorted by `priority_score` descending; the sort is stable (for every
score value, the tasks holding it appear in input order); and every task
is classified `high` iff score ≥ 70, `medium` iff 40 ≤ score < 70, else
`low`. -/
theorem claim_C5 (today : ℤ) (tasks : List Task) (strategy : String) :
    ((analyze_tasks today tasks strategy).tasks).Perm
      (tasks.map (score_task today tasks (analyze_tasks today tasks strategy).strategy_used)) ∧
    ((analyze_tasks today tasks strategy).tasks).Pairwise
      (fun a b => b.priority_score ≤ a.priority_score) ∧
    (∀ q : ℚ, ((analyze_tasks today tasks strategy).tasks).filter
        (fun t => decide (t.priority_score = q)) =
      (tasks.map
          (score_task today tasks (analyze_tasks today tasks strategy).strategy_used)).filter
        (fun t => decide (t.priority_score = q))) ∧
    (∀ t ∈ (analyze_tasks today tasks strategy).tasks,
      t.priority_level = if 70 ≤ t.priority_score then "high"
        else if 40 ≤ t.priority_score then "medium" else "low") := by
  have htasks : (analyze_tasks today tasks strategy).tasks =
      List.insertionSort (fun a b => b.priority_score ≤ a.priority_score)
        (tasks.map
          (score_task today tasks (analyze_tasks today tasks strategy).strategy_used)) := rfl
  refine ⟨?_, ?_, ?_, ?_⟩
  · rw [htasks]
    exact List.perm_insertionSort _ _
  · rw [htasks]
    exact List.sorted_insertionSort _ _
  · intro q
    rw [htasks]
    exact filter_insertionSort q _
  · intro t ht
    rw [htasks] at ht
    have ht2 : t ∈ tasks.map (score_task today tasks
        (analyze_tasks today tasks strategy).strategy_used) :=
      ((List.perm_insertionSort
        (fun a b : ScoredTask => b.priority_score ≤ a.priority_score) _).mem_iff).mp ht
    obtain ⟨x, hx, rfl⟩ := List.mem_map.mp ht2
    rfl

theorem claim_C5_witness :
    ((analyze_tasks 0 [sampleTask] "smart_balance").tasks).Perm
      ([sampleTask].map (score_task 0 [sampleTask]
        (analyze_tasks 0 [sampleTask] "smart_balance").strategy_used)) :=
  (claim_C5 0 [sampleTask] "smart_balance").1

/-! ### Suggestions and graceful degradation (claim C3) -/

/-- Field values on which `generate_suggestion_reason`'s raw comparisons
cannot raise: a missing key (defaulted by `.get(k, d)`) or a number. -/
def suggestion_safe (v : PyVal) : Prop :=
  v = PyVal.absent ∨ ∃ q : ℚ, v = PyVal.num q

lemma fieldGetD_safe {v : PyVal} (h : suggestion_safe v) (k : ℚ) :
    ∃ q : ℚ, fieldGetD v (PyVal.num k) = PyVal.num q := by
  rcases h with h | ⟨q, h⟩
  · exact ⟨k, by rw [h]; rfl⟩
  · exact ⟨q, by rw [h]; rfl⟩

lemma gsr_isSome (today : ℤ) (st : ScoredTask) (rank : ℕ)
    (h1 : suggestion_safe st.task.importance)
    (h2 : suggestion_safe st.task.estimated_hours) :
    (generate_suggestion_reason today st rank).isSome := by
  obtain ⟨qi, hi⟩ := fieldGetD_safe h1 5
  obtain ⟨qh, hh⟩ := fieldGetD_safe h2 4
  unfold generate_suggestion_reason
  rw [hi, hh]
  simp only [pyGeNum, pyLeNum, Option.bind_eq_bind, Option.some_bind]
  split_ifs <;> rfl

lemma build_suggestions_isSome (today : ℤ) :
    ∀ (i : ℕ) (l : List ScoredTask),
      (∀ t ∈ l, suggestion_safe t.task.importance ∧ suggestion_safe t.task.estimated_hours) →
      (build_suggestions today i l).isSome := by
  intro i l
  induction l generalizing i with
  | nil => intro _; rfl
  | cons t ts ih =>
    intro h
    unfold build_suggestions
    have h1 := h t (List.mem_cons_self t ts)
    obtain ⟨r, hr⟩ := Option.isSome_iff_exists.mp (gsr_isSome today t i h1.1 h1.2)
    obtain ⟨rest, hrest⟩ := Option.isSome_iff_exists.mp
      (ih (i + 1) (fun u hu => h u (List.mem_cons_of_mem _ hu)))
    rw [hr]
    simp only [Option.bind_eq_bind, Option.some_bind, hrest]
    rfl

lemma mem_analyze_tasks {today : ℤ} {tasks : List Task} {strategy : String}
    {st : ScoredTask} (h : st ∈ (analyze_tasks today tasks strategy).tasks) :
    ∃ t ∈ tasks,
      st = score_task today tasks ((analyze_tasks today tasks strategy).strategy_used) t := by
  have h2 : st ∈ tasks.map
      (score_task today tasks ((analyze_tasks today tasks strategy).strategy_used)) :=
    ((List.perm_insertionSort
      (fun a b : ScoredTask => b.priority_score ≤ a.priority_score) _).mem_iff).mp h
  obtain ⟨x, hx, hxe⟩ := List.mem_map.mp h2
  exact ⟨x, hx, hxe.symm⟩

/-- Claim C3 (amended): `score`, `explain` and `analyze` are total and
degrade malformed fields to the documented defaults, and `suggest`
completes whenever the importance and estimated-hours of the suggested
tasks are numeric or missing — but (see the counterexample) not when one
of those fields is present and null or non-numeric. -/
theorem claim_C3 (today : ℤ) :
    (∀ (tasks : List Task) (strategy : String) (count : ℕ),
      (∀ t ∈ tasks, suggestion_safe t.importance ∧ suggestion_safe t.estimated_hours) →
      (get_suggestions today tasks strategy count).isSome) ∧
    (∀ task : Task, (∀ q : ℚ, task.importance ≠ .num q ∧ task.importance ≠ .strNum q) →
      (calculate_importance_score task).1 = 50) ∧
    (∀ task : Task, (∀ q : ℚ, task.estimated_hours ≠ .num q ∧ task.estimated_hours ≠ .strNum q) →
      (calculate_effort_score task).1 = 70) ∧
    (∀ task : Task, parse_date task.due_date = none →
      (calculate_urgency_score today task).1 = 50) ∧
    (∀ (task : Task) (all_tasks : List Task), (∀ l : List ℤ, task.dependencies ≠ .listV l) →
      calculate_dependency_score task all_tasks =
        calculate_dependency_score { task with dependencies := PyVal.listV [] } all_tasks) := by
  refine ⟨?_, ?_, ?_, ?_, ?_⟩
  · intro tasks strategy count hs
    unfold get_suggestions
    apply build_suggestions_isSome
    intro t ht
    have ht2 : t ∈ (analyze_tasks today tasks strategy).tasks :=
      List.take_subset _ _ ht
    obtain ⟨x, hx, rfl⟩ := mem_analyze_tasks ht2
    exact hs x hx
  · intro task h
    cases hv : task.importance with
    | num q => exact absurd hv (h q).1
    | strNum q => exact absurd hv (h q).2
    | absent => norm_num [calculate_importance_score, hv, fieldGet, float_coerce]
    | noneV => norm_num [calculate_importance_score, hv, fieldGet, float_coerce]
    | strBad s =>
      have e : (PyVal.strBad s = PyVal.noneV) = False := by simp
      norm_num [calculate_importance_score, hv, fieldGet, float_coerce, e]
    | listV l =>
      have e : (PyVal.listV l = PyVal.noneV) = False := by simp
      norm_num [calculate_importance_score, hv, fieldGet, float_coerce, e]
    | otherV =>
      have e : (PyVal.otherV = PyVal.noneV) = False := by simp
      norm_num [calculate_importance_score, hv, fieldGet, float_coerce, e]
  · intro task h
    cases hv : task.estimated_hours with
    | num q => exact absurd hv (h q).1
    | strNum q => exact absurd hv (h q).2
    | absent => norm_num [calculate_effort_score, hv, fieldGet, float_coerce]
    | noneV => norm_num [calculate_effort_score, hv, fieldGet, float_coerce]
    | strBad s =>
      have e : (PyVal.strBad s = PyVal.noneV) = False := by simp
      norm_num [calculate_effort_score, hv, fieldGet, float_coerce, e]
    | listV l =>
      have e : (PyVal.listV l = PyVal.noneV) = False := by simp
      norm_num [calculate_effort_score, hv, fieldGet, float_coerce, e]
    | otherV =>
      have e : (PyVal.otherV = PyVal.noneV) = False := by simp
      norm_num [calculate_effort_score, hv, fieldGet, float_coerce, e]
  · intro task h
    unfold calculate_urgency_score
    rw [h]
    try norm_num
  · intro task all_tasks h
    cases hv : task.dependencies with
    | listV l => exact absurd hv (h l)
    | absent => simp [calculate_dependency_score, hv, depsOrEmpty]
    | noneV => simp [calculate_dependency_score, hv, depsOrEmpty]
    | num q => simp [calculate_dependency_score, hv, depsOrEmpty]
    | strNum q => simp [calculate_dependency_score, hv, depsOrEmpty]
    | strBad s => simp [calculate_dependency_score, hv, depsOrEmpty]
    | otherV => simp [calculate_dependency_score, hv, depsOrEmpty]

/-- A task whose `importance` key is present but holds `None`: Python's
`importance >= 8` in `generate_suggestion_reason` raises `TypeError`. -/
def c3_bad : Task :=
  { id := some 1, due_date := .absent, importance := .noneV,
    estimated_hours := .absent, dependencies := .listV [] }

/-- Claim C3 counterexample: on a task set whose only record carries a
null `importance`, `get_suggestions` (the `suggest` entry point) raises —
the embedded computation aborts with `none` — refuting that every core
entry point completes without raising on null/non-numeric fields. -/
theorem claim_C3_counterexample :
    get_suggestions 0 [c3_bad] "smart_balance" 3 = none := rfl

def c3_good : Task :=
  { id := some 1, due_date := .absent, importance := .num 7,
    estimated_hours := .num 3, dependencies := .listV [] }

theorem claim_C3_witness : (get_suggestions 0 [c3_good] "smart_balance" 3).isSome := by
  refine (claim_C3 0).1 [c3_good] "smart_balance" 3 ?_
  intro t ht
  have he : t = c3_good := by simpa using ht
  subst he
  exact ⟨Or.inr ⟨7, rfl⟩, Or.inr ⟨3, rfl⟩⟩

/-! ### Cycle detection (claim C2): invariants of the embedded DFS -/

lemma foldl_inv {α β : Type} (f : β → α → β) (P : β → Prop) :
    ∀ (l : List α) (b : β), P b → (∀ (b0 : β) (x : α), x ∈ l → P b0 → P (f b0 x)) →
      P (l.foldl f b) := by
  intro l
  induction l with
  | nil => exact fun b hb _ => hb
  | cons a l ih =>
    intro b hb hstep
    exact ih (f b a) (hstep b a (List.mem_cons_self a l) hb)
      (fun b0 x hx h0 => hstep b0 x (List.mem_cons_of_mem _ hx) h0)

lemma countP_le_of_imp {α : Type} (p q : α → Bool) (l : List α)
    (h : ∀ x ∈ l, q x = true → p x = true) : l.countP q ≤ l.countP p := by
  induction l with
  | nil => simp
  | cons a l ih =>
    have ih2 := ih (fun x hx => h x (List.mem_cons_of_mem _ hx))
    rw [List.countP_cons, List.countP_cons]
    by_cases hq : q a = true
    · rw [hq, h a (List.mem_cons_self _ _) hq]
      omega
    · rw [Bool.not_eq_true] at hq
      rw [hq]
      simp only [Bool.false_eq_true, if_false]
      by_cases hp : p a = true <;> simp [hp] <;> omega

lemma countP_lt_of_witness {α : Type} (p q : α → Bool) (x : α)
    (hp : p x = true) (hq : q x = false) :
    ∀ l : List α, x ∈ l → (∀ y ∈ l, q y = true → p y = true) →
      l.countP q < l.countP p := by
  intro l
  induction l with
  | nil => intro hx; cases hx
  | cons a l ih =>
    intro hx himp
    rw [List.countP_cons, List.countP_cons]
    rcases List.mem_cons.mp hx with rfl | hx2
    · rw [hp, hq]
      have := countP_le_of_imp p q l (fun y hy => himp y (List.mem_cons_of_mem _ hy))
      simp only [Bool.false_eq_true, if_false, if_pos]
      omega
    · have hrec := ih hx2 (fun y hy => himp y (List.mem_cons_of_mem _ hy))
      by_cases hqa : q a = true
      · rw [hqa, himp a (List.mem_cons_self _ _) hqa]
        omega
      · rw [Bool.not_eq_true] at hqa
        rw [hqa]
        simp only [Bool.false_eq_true, if_false]
        by_cases hpa : p a = true <;> simp [hpa] <;> omega

/-- Number of graph keys not yet visited (termination budget of `dfs`). -/
def freeKeys (g : List (Option ℤ × List ℤ)) (visited : List (Option ℤ)) : ℕ :=
  g.countP (fun kv => decide (kv.1 ∉ visited))

lemma lookup_isSome_mem {k : Option ℤ} {g : List (Option ℤ × List ℤ)}
    (h : (List.lookup k g).isSome = true) : ∃ v, (k, v) ∈ g := by
  induction g with
  | nil => simp [List.lookup] at h
  | cons kv g ih =>
    obtain ⟨k', v'⟩ := kv
    by_cases he : (k == k') = true
    · exact ⟨v', by simp [beq_iff_eq.mp he]⟩
    · rw [Bool.not_eq_true] at he
      rw [List.lookup, he] at h
      obtain ⟨v, hv⟩ := ih h
      exact ⟨v, List.mem_cons_of_mem _ hv⟩

lemma mem_key_lookup_isSome {g : List (Option ℤ × List ℤ)} {k : Option ℤ} {v : List ℤ}
    (h : (k, v) ∈ g) : (List.lookup k g).isSome = true := by
  induction g with
  | nil => cases h
  | cons kv g ih =>
    obtain ⟨k', v'⟩ := kv
    by_cases he : (k == k') = true
    · rw [List.lookup, he]
      rfl
    · rw [Bool.not_eq_true] at he
      rw [List.lookup, he]
      rcases List.mem_cons.mp h with heq | hmem
      · exact absurd (congrArg Prod.fst heq) (by simpa using beq_eq_false_iff_ne.mp he)
      · exact ih hmem

lemma freeKeys_mono {g : List (Option ℤ × List ℤ)} {v1 v2 : List (Option ℤ)}
    (h : ∀ x ∈ v1, x ∈ v2) : freeKeys g v2 ≤ freeKeys g v1 := by
  refine countP_le_of_imp _ _ g (fun kv _ hq => ?_)
  simp only [decide_eq_true_eq] at hq ⊢
  exact fun hm => hq (h _ hm)

lemma freeKeys_lt {g : List (Option ℤ × List ℤ)} {node : Option ℤ}
    {visited : List (Option ℤ)} (hk : (List.lookup node g).isSome = true)
    (hnv : node ∉ visited) : freeKeys g (visited ++ [node]) < freeKeys g visited := by
  obtain ⟨v, hv⟩ := lookup_isSome_mem hk
  refine countP_lt_of_witness _ _ (node, v) ?_ ?_ g hv ?_
  · simpa using hnv
  · simp
  · intro y hy hq
    simp only [decide_eq_true_eq] at hq ⊢
    exact fun hm => hq (List.mem_append_left _ hm)

lemma suffixFrom_not_mem {x : Option ℤ} :
    ∀ {l : List (Option ℤ)}, x ∉ l → suffixFrom x (l ++ [x]) = [x] := by
  intro l
  induction l with
  | nil => intro _; simp [suffixFrom]
  | cons a l ih =>
    intro h
    have hax : ¬ (a = x) := fun he => h (List.mem_cons.mpr (Or.inl he.symm))
    simp only [List.cons_append, suffixFrom, if_neg hax]
    exact ih (fun hm => h (List.mem_cons_of_mem _ hm))

lemma dfs_recStack (g : List (Option ℤ × List ℤ)) :
    ∀ (fuel : ℕ) (node : Option ℤ) (path : List (Option ℤ)) (st : DfsState),
      (dfs g fuel node path st).recStack = st.recStack := by
  intro fuel
  induction fuel with
  | zero => intro node path st; rfl
  | succ fuel ih =>
    intro node path st
    simp only [dfs]
    split_ifs with h1 h2 h3
    · rfl
    · rfl
    · rfl
    · dsimp only
      have hfold := foldl_inv
        (fun acc nb => if graph_has g (some nb) = true
          then dfs g fuel (some nb) (path ++ [node]) acc else acc)
        (fun s => s.recStack = node :: st.recStack) (graph_get g node)
        { visited := st.visited ++ [node], recStack := node :: st.recStack,
          cycles := st.cycles }
        rfl
        (fun s nb _ hs => by
          dsimp only
          by_cases hh : graph_has g (some nb) = true
          · rw [if_pos hh, ih]
            exact hs
          · rw [if_neg hh]
            exact hs)
      rw [hfold]
      exact List.erase_cons_head node st.recStack

lemma dfs_visited_mono (g : List (Option ℤ × List ℤ)) :
    ∀ (fuel : ℕ) (node : Option ℤ) (path : List (Option ℤ)) (st : DfsState)
      (x : Option ℤ), x ∈ st.visited → x ∈ (dfs g fuel node path st).visited := by
  intro fuel
  induction fuel with
  | zero => intro node path st x hx; exact hx
  | succ fuel ih =>
    intro node path st x hx
    simp only [dfs]
    split_ifs with h1 h2 h3
    · exact hx
    · exact hx
    · exact hx
    · dsimp only
      exact foldl_inv
        (fun acc nb => if graph_has g (some nb) = true
          then dfs g fuel (some nb) (path ++ [node]) acc else acc)
        (fun s => x ∈ s.visited) (graph_get g node)
        { visited := st.visited ++ [node], recStack := node :: st.recStack,
          cycles := st.cycles }
        (List.mem_append_left _ hx)
        (fun s nb _ hs => by
          dsimp only
          by_cases hh : graph_has g (some nb) = true
          · rw [if_pos hh]
            exact ih (some nb) (path ++ [node]) s x hs
          · rw [if_neg hh]
            exact hs)

lemma dfs_cycles_mono (g : List (Option ℤ × List ℤ)) :
    ∀ (fuel : ℕ) (node : Option ℤ) (path : List (Option ℤ)) (st : DfsState)
      (c : List (Option ℤ)), c ∈ st.cycles → c ∈ (dfs g fuel node path st).cycles := by
  intro fuel
  induction fuel with
  | zero => intro node path st c hc; exact hc
  | succ fuel ih =>
    intro node path st c hc
    simp only [dfs]
    split_ifs with h1 h2 h3
    · exact List.mem_append_left _ hc
    · exact hc
    · exact hc
    · dsimp only
      exact foldl_inv
        (fun acc nb => if graph_has g (some nb) = true
          then dfs g fuel (some nb) (path ++ [node]) acc else acc)
        (fun s => c ∈ s.cycles) (graph_get g node)
        { visited := st.visited ++ [node], recStack := node :: st.recStack,
          cycles := st.cycles }
        hc
        (fun s nb _ hs => by
          dsimp only
          by_cases hh : graph_has g (some nb) = true
          · rw [if_pos hh]
            exact ih (some nb) (path ++ [node]) s c hs
          · rw [if_neg hh]
            exact hs)

lemma dfs_visits (g : List (Option ℤ × List ℤ)) (fuel : ℕ) (node : Option ℤ)
    (path : List (Option ℤ)) (st : DfsState) (h1 : node ∉ st.recStack)
    (h2 : node ∉ st.visited) (hf : 1 ≤ fuel) :
    node ∈ (dfs g fuel node path st).visited := by
  obtain ⟨f, rfl⟩ : ∃ f, fuel = f + 1 := ⟨fuel - 1, by omega⟩
  simp only [dfs]
  rw [if_neg h1, if_neg h2]
  dsimp only
  exact foldl_inv
    (fun acc nb => if graph_has g (some nb) = true
      then dfs g f (some nb) (path ++ [node]) acc else acc)
    (fun s => node ∈ s.visited) (graph_get g node)
    { visited := st.visited ++ [node], recStack := node :: st.recStack,
      cycles := st.cycles }
    (List.mem_append_right _ (List.mem_singleton.mpr rfl))
    (fun s nb _ hs => by
      dsimp only
      by_cases hh : graph_has g (some nb) = true
      · rw [if_pos hh]
        exact dfs_visited_mono g f (some nb) (path ++ [node]) s node hs
      · rw [if_neg hh]
        exact hs)

lemma selfloop_haskey {g : List (Option ℤ × List ℤ)} {i : ℤ}
    (hloop : i ∈ graph_get g (some i)) : graph_has g (some i) = true := by
  unfold graph_get at hloop
  unfold graph_has
  cases h : List.lookup (some i) g with
  | none => rw [h] at hloop; simp at hloop
  | some v => rfl

/-- Main invariant: once the self-looping node `i` has been visited, the
cycle `[i, i]` is among the recorded cycles; `dfs` preserves this
whenever it has enough fuel (more than the number of unvisited keys). -/
lemma dfs_selfloop_inv (g : List (Option ℤ × List ℤ)) (i : ℤ)
    (hloop : i ∈ graph_get g (some i)) :
    ∀ (fuel : ℕ) (node : Option ℤ) (path : List (Option ℤ)) (st : DfsState),
      graph_has g node = true →
      freeKeys g st.visited < fuel →
      (∀ x ∈ path, x ∈ st.recStack) →
      (some i ∈ st.visited → [some i, some i] ∈ st.cycles) →
      (some i ∈ (dfs g fuel node path st).visited →
        [some i, some i] ∈ (dfs g fuel node path st).cycles) := by
  intro fuel
  induction fuel with
  | zero => intro node path st _ hf _ _; exact absurd hf (by omega)
  | succ fuel ih =>
    intro node path st hnode hf hpath hP
    simp only [dfs]
    by_cases h1 : node ∈ st.recStack
    · rw [if_pos h1]
      by_cases h2 : node ∈ path
      · rw [if_pos h2]
        intro hv
        exact List.mem_append_left _ (hP hv)
      · rw [if_neg h2]
        exact hP
    · rw [if_neg h1]
      by_cases h2 : node ∈ st.visited
      · rw [if_pos h2]
        exact hP
      · rw [if_neg h2]
        dsimp only
        have hk : (List.lookup node g).isSome = true := hnode
        have hfree1 : freeKeys g (st.visited ++ [node]) < fuel := by
          have hlt := freeKeys_lt (g := g) hk h2
          omega
        by_cases hni : node = some i
        · subst hni
          obtain ⟨l1, l2, hdeps⟩ := List.append_of_mem hloop
          rw [hdeps, List.foldl_append, List.foldl_cons]
          set A := List.foldl
            (fun acc nb => if graph_has g (some nb) = true
              then dfs g fuel (some nb) (path ++ [some i]) acc else acc)
            { visited := st.visited ++ [some i], recStack := some i :: st.recStack,
              cycles := st.cycles } l1 with hA
          have hR : A.recStack = some i :: st.recStack ∧
              (∀ x ∈ st.visited ++ [some i], x ∈ A.visited) := by
            rw [hA]
            exact foldl_inv
              (fun acc nb => if graph_has g (some nb) = true
                then dfs g fuel (some nb) (path ++ [some i]) acc else acc)
              (fun s => s.recStack = some i :: st.recStack ∧
                (∀ x ∈ st.visited ++ [some i], x ∈ s.visited))
              l1
              { visited := st.visited ++ [some i], recStack := some i :: st.recStack,
                cycles := st.cycles }
              ⟨rfl, fun x hx => hx⟩
              (fun s nb _ hs => by
                dsimp only
                by_cases hh : graph_has g (some nb) = true
                · rw [if_pos hh]
                  refine ⟨?_, ?_⟩
                  · rw [dfs_recStack]
                    exact hs.1
                  · intro x hx
                    exact dfs_visited_mono g fuel _ _ _ x (hs.2 x hx)
                · rw [if_neg hh]
                  exact hs)
          have hkey : graph_has g (some i) = true := selfloop_haskey hloop
          have hfuel1 : 1 ≤ fuel := by
            obtain ⟨v, hv⟩ := lookup_isSome_mem hk
            have hpos : 0 < freeKeys g st.visited := by
              refine List.countP_pos_iff.mpr ⟨(some i, v), hv, ?_⟩
              simpa using h2
            omega
          have hstepi : (if graph_has g (some i) = true
              then dfs g fuel (some i) (path ++ [some i]) A else A) =
              { A with cycles := A.cycles ++ [[some i, some i]] } := by
            rw [if_pos hkey]
            obtain ⟨f2, hf2⟩ : ∃ f2, fuel = f2 + 1 := ⟨fuel - 1, by omega⟩
            rw [hf2]
            simp only [dfs]
            rw [if_pos (show some i ∈ A.recStack by
              rw [hR.1]; exact List.mem_cons_self _ _)]
            rw [if_pos (show some i ∈ path ++ [some i] from
              List.mem_append_right _ (List.mem_singleton.mpr rfl))]
            rw [suffixFrom_not_mem (fun hm => h1 (hpath _ hm))]
            rfl
          rw [hstepi]
          have hfinal := foldl_inv
            (fun acc nb => if graph_has g (some nb) = true
              then dfs g fuel (some nb) (path ++ [some i]) acc else acc)
            (fun s => [some i, some i] ∈ s.cycles)
            l2
            { A with cycles := A.cycles ++ [[some i, some i]] }
            (List.mem_append_right _ (List.mem_singleton.mpr rfl))
            (fun s nb _ hs => by
              dsimp only
              by_cases hh : graph_has g (some nb) = true
              · rw [if_pos hh]
                exact dfs_cycles_mono g fuel _ _ _ _ hs
              · rw [if_neg hh]
                exact hs)
          intro _
          exact hfinal
        · have hQ := foldl_inv
            (fun acc nb => if graph_has g (some nb) = true
              then dfs g fuel (some nb) (path ++ [node]) acc else acc)
            (fun s => (some i ∈ s.visited → [some i, some i] ∈ s.cycles) ∧
              s.recStack = node :: st.recStack ∧
              (∀ x ∈ st.visited ++ [node], x ∈ s.visited))
            (graph_get g node)
            { visited := st.visited ++ [node], recStack := node :: st.recStack,
              cycles := st.cycles }
            ⟨fun hv => by
              rcases List.mem_append.mp hv with hv1 | hv2
              · exact hP hv1
              · exact absurd (List.mem_singleton.mp hv2).symm hni,
              rfl, fun x hx => hx⟩
            (fun s nb hnb hs => by
              dsimp only
              by_cases hh : graph_has g (some nb) = true
              · rw [if_pos hh]
                refine ⟨?_, ?_, ?_⟩
                · refine ih (some nb) (path ++ [node]) s hh ?_ ?_ hs.1
                  · exact lt_of_le_of_lt (freeKeys_mono hs.2.2) hfree1
                  · intro x hx
                    rw [hs.2.1]
                    rcases List.mem_append.mp hx with hx1 | hx2
                    · exact List.mem_cons_of_mem _ (hpath x hx1)
                    · rw [List.mem_singleton.mp hx2]
                      exact List.mem_cons_self _ _
                · rw [dfs_recStack]
                  exact hs.2.1
                · intro x hx
                  exact dfs_visited_mono g fuel _ _ _ x (hs.2.2 x hx)
              · rw [if_neg hh]
                exact hs)
          intro hv
          exact hQ.1 hv

/-- Folding the per-key DFS launcher over any sublist of the graph's
entries that contains the self-looping key records the cycle `[i, i]`. -/
lemma fold_records_selfloop (g : List (Option ℤ × List ℤ)) (i : ℤ)
    (hloop : i ∈ graph_get g (some i)) (F : ℕ)
    (hF : ∀ visited, freeKeys g visited < F)
    (l : List (Option ℤ × List ℤ)) (hsub : ∀ kv ∈ l, kv ∈ g) (v : List ℤ)
    (hmem : (some i, v) ∈ l) :
    [some i, some i] ∈
      (List.foldl (fun st kv => if kv.1 ∈ st.visited then st else dfs g F kv.1 [] st)
        { visited := [], recStack := [], cycles := [] } l).cycles := by
  obtain ⟨l1, l2, hsplit⟩ := List.append_of_mem hmem
  subst hsplit
  rw [List.foldl_append, List.foldl_cons]
  have hstep0 : ∀ (s : DfsState) (kv : Option ℤ × List ℤ), kv ∈ g →
      (s.recStack = [] ∧ (some i ∈ s.visited → [some i, some i] ∈ s.cycles)) →
      ((if kv.1 ∈ s.visited then s else dfs g F kv.1 [] s).recStack = [] ∧
       (some i ∈ (if kv.1 ∈ s.visited then s else dfs g F kv.1 [] s).visited →
        [some i, some i] ∈ (if kv.1 ∈ s.visited then s else dfs g F kv.1 [] s).cycles)) := by
    intro s kv hkv hs
    by_cases hmem2 : kv.1 ∈ s.visited
    · rw [if_pos hmem2]
      exact hs
    · rw [if_neg hmem2]
      refine ⟨?_, ?_⟩
      · rw [dfs_recStack]
        exact hs.1
      · exact dfs_selfloop_inv g i hloop F kv.1 [] s
          (mem_key_lookup_isSome hkv) (hF s.visited) (by simp) hs.2
  have hS := foldl_inv
    (fun st kv => if kv.1 ∈ st.visited then st else dfs g F kv.1 [] st)
    (fun s => s.recStack = [] ∧ (some i ∈ s.visited → [some i, some i] ∈ s.cycles))
    l1 { visited := [], recStack := [], cycles := [] }
    ⟨rfl, by simp⟩
    (fun s kv hkv hs => by
      dsimp only
      exact hstep0 s kv (hsub kv (List.mem_append_left _ hkv)) hs)
  set A := List.foldl
    (fun st kv => if kv.1 ∈ st.visited then st else dfs g F kv.1 [] st)
    { visited := [], recStack := [], cycles := [] } l1 with hA
  have hF1 : 1 ≤ F := lt_of_le_of_lt (Nat.zero_le _) (hF [])
  have hkey : graph_has g (some i) = true := selfloop_haskey hloop
  have hcyc : [some i, some i] ∈
      (if (some i, v).1 ∈ A.visited then A else dfs g F (some i, v).1 [] A).cycles := by
    by_cases hmem2 : (some i, v).1 ∈ A.visited
    · rw [if_pos hmem2]
      exact hS.2 hmem2
    · rw [if_neg hmem2]
      have hvis : some i ∈ (dfs g F (some i) [] A).visited := by
        refine dfs_visits _ _ _ _ _ ?_ hmem2 hF1
        rw [hS.1]
        simp
      exact dfs_selfloop_inv g i hloop F (some i) [] A hkey (hF A.visited)
        (by simp) hS.2 hvis
  refine foldl_inv
    (fun st kv => if kv.1 ∈ st.visited then st else dfs g F kv.1 [] st)
    (fun s => [some i, some i] ∈ s.cycles)
    l2 _ hcyc
    (fun s kv _ hs => by
      dsimp only
      by_cases hmem2 : kv.1 ∈ s.visited
      · rw [if_pos hmem2]
        exact hs
      · rw [if_neg hmem2]
        exact dfs_cycles_mono _ _ _ _ _ _ hs)

/-- Every graph key whose dependency list (in the built graph) contains
its own id contributes the cycle `[id, id]` to the detector's output. -/
lemma detect_selfloop (tasks : List Task) (i : ℤ)
    (hloop : i ∈ graph_get (build_graph tasks) (some i)) :
    [some i, some i] ∈ detect_circular_dependencies tasks := by
  unfold detect_circular_dependencies
  dsimp only
  have hkey : graph_has (build_graph tasks) (some i) = true := selfloop_haskey hloop
  obtain ⟨v, hv⟩ := lookup_isSome_mem
    (show (List.lookup (some i) (build_graph tasks)).isSome = true from hkey)
  exact fold_records_selfloop (build_graph tasks) i hloop
    ((build_graph tasks).length + 1)
    (fun visited => lt_of_le_of_lt (List.countP_le_length _) (by omega))
    (build_graph tasks) (fun kv hkv => hkv) v hv

lemma lookup_upsert_self (g : List (Option ℤ × List ℤ)) (k : Option ℤ) (v : List ℤ) :
    List.lookup k (upsert g k v) = some v := by
  induction g with
  | nil => simp [upsert, List.lookup]
  | cons kv g ih =>
    obtain ⟨k', v'⟩ := kv
    by_cases he : k' = k
    · subst he
      simp [upsert, List.lookup]
    · rw [upsert, if_neg he, List.lookup,
        beq_eq_false_iff_ne.mpr (fun h => he h.symm)]
      exact ih

lemma lookup_upsert_ne (g : List (Option ℤ × List ℤ)) (k k' : Option ℤ) (v : List ℤ)
    (h : k' ≠ k) : List.lookup k' (upsert g k v) = List.lookup k' g := by
  induction g with
  | nil => simp [upsert, List.lookup, beq_eq_false_iff_ne.mpr h]
  | cons kv g ih =>
    obtain ⟨k0, v0⟩ := kv
    by_cases he : k0 = k
    · subst he
      rw [upsert, if_pos rfl, List.lookup, List.lookup,
        beq_eq_false_iff_ne.mpr h]
    · rw [upsert, if_neg he, List.lookup, List.lookup]
      cases hbe : k' == k0
      · exact ih
      · rfl

lemma lookup_foldl_upsert_ne (i : ℤ) :
    ∀ (l2 : List Task) (g0 : List (Option ℤ × List ℤ)),
      (∀ u ∈ l2, u.id ≠ some i) →
      List.lookup (some i)
        (List.foldl (fun g t => upsert g t.id (depsOrEmpty t.dependencies)) g0 l2) =
      List.lookup (some i) g0 := by
  intro l2
  induction l2 with
  | nil => intro g0 _; rfl
  | cons u l2 ih =>
    intro g0 hne
    rw [List.foldl_cons]
    rw [ih _ (fun w hw => hne w (List.mem_cons_of_mem _ hw))]
    exact lookup_upsert_ne g0 u.id (some i) _
      (fun h => hne u (List.mem_cons_self _ _) h.symm)

/-- Claim C2 (amended): if the task record that defines the graph entry
for id `i` (the last record carrying that id; with no duplicate ids, the
task itself) lists `i` among its own effective dependencies, the detector
reports the self-cycle — represented, like every reported cycle, as the
path suffix closed by repeating the entering node, i.e. the two-element
list `[i, i]` containing only that id. -/
theorem claim_C2 (tasks : List Task) (i : ℤ) (l1 l2 : List Task) (t : Task)
    (hsplit : tasks = l1 ++ t :: l2) (hid : t.id = some i)
    (hdep : i ∈ depsOrEmpty t.dependencies) (hlast : ∀ u ∈ l2, u.id ≠ some i) :
    [some i, some i] ∈ detect_circular_dependencies tasks := by
  apply detect_selfloop
  unfold graph_get build_graph
  rw [hsplit, List.foldl_append, List.foldl_cons]
  rw [lookup_foldl_upsert_ne i l2 _ hlast]
  rw [hid, lookup_upsert_self]
  simpa using hdep

/-- A task depending on itself. -/
def c2_self : Task :=
  { id := some 1, due_date := .absent, importance := .absent,
    estimated_hours := .absent, dependencies := .listV [1] }

/-- Claim C2 counterexample: for the one-task set whose task depends on
itself, the detector reports exactly `[[1, 1]]` — a single cycle that
contains only that id but has list length 2 (the entering node is
repeated to close the cycle), so no reported cycle has length 1. -/
theorem claim_C2_counterexample :
    detect_circular_dependencies [c2_self] = [[some 1, some 1]] ∧
    ∀ c ∈ detect_circular_dependencies [c2_self], c.length ≠ 1 := by
  constructor
  · rfl
  · decide

theorem claim_C2_witness : [some 1, some 1] ∈ detect_circular_dependencies [c2_self] :=
  claim_C2 [c2_self] 1 [] [] c2_self rfl rfl (by decide) (by simp)

end TaskAnalyzer
